import Mathlib

/-!
Shallow embedding of the xspin spinner core (src/src/xspin/__init__.py) and
proofs about the claims of its specification.

Conventions of the embedding:
  - Python strings are modelled as `List Char`; machine input/output is
    modelled as explicit event lists.
  - Fallible Python calls are modelled with `Except Unit`, a raised
    exception being `Except.error ()`.
  - The unicodedata lookups `category`, `combining` and `east_asian_width`
    are an external library; they are modelled as an oracle record `UData`
    that every width theorem is parameterised over.
-/

namespace Xspin

/-- General-category information, restricted to what chwidth inspects:
the Python code only asks whether unicodedata.category is Cc or Cf. -/
inductive GC where
  | Cc
  | Cf
  | other
deriving DecidableEq

/-- East-asian-width classes returned by unicodedata.east_asian_width. -/
inductive EAW where
  | W
  | F
  | Na
  | H
  | A
  | N
deriving DecidableEq

/-- Oracle for the unicodedata lookups used by chwidth (source line 4 imports
category, combining, east_asian_width from unicodedata). -/
structure UData where
  category : Char → GC
  combining : Char → Nat
  east_asian_width : Char → EAW

/-- Embedding of chwidth (source lines 141-149).  The Python function is
declared with parameter `char : str` but is handed whole lines by get_lines;
unicodedata.category raises TypeError unless its argument is a single
character, so the embedding takes a `List Char` and errors unless it is a
singleton, exactly as the library call does. -/
def chwidth (u : UData) (s : List Char) : Except Unit Int :=
  match s with
  | [c] =>
      if u.category c = GC.Cc ∨ u.category c = GC.Cf then Except.ok (-1)
      else if u.combining c ≠ 0 then Except.ok 0
      else if u.east_asian_width c = EAW.W ∨ u.east_asian_width c = EAW.F then Except.ok 2
      else Except.ok 1
  | _ => Except.error ()

/-- The escape character x1b that starts the ANSI pattern (source line 137). -/
def escChar : Char := Char.ofNat 27

/-- Helper for the regex x1b[^m]*?m of get_pattern (source lines 131-138):
starting right after an escape character, drop everything up to and including
the first m; return Option.none when no m follows, in which case the regex
match fails. -/
def dropToM : List Char → Option (List Char)
  | [] => Option.none
  | c :: rest => if c = 'm' then some rest else dropToM rest

theorem dropToM_length : ∀ (l r : List Char), dropToM l = some r → r.length < l.length := by
  intro l
  induction l with
  | nil => intro r h; simp [dropToM] at h
  | cons c rest ih =>
      intro r h
      by_cases hc : c = 'm'
      · simp [dropToM, hc] at h
        simp [← h]
      · simp [dropToM, hc] at h
        have := ih r h
        simp
        omega

theorem dropToM_none_of_not_mem : ∀ (l : List Char), 'm' ∉ l → dropToM l = Option.none := by
  intro l
  induction l with
  | nil => intro _; rfl
  | cons c rest ih =>
      intro h
      have hc : ¬ c = 'm' := fun hcm => h (hcm ▸ List.mem_cons_self c rest)
      have hr : 'm' ∉ rest := fun hm => h (List.mem_cons_of_mem c hm)
      simp [dropToM, hc, ih hr]

/-- Embedding of pattern.sub("", text) for the compiled regex x1b[^m]*?m
(source lines 131-138 and 154).  re.sub scans left to right; at an escape
character the non-greedy [^m]*?m consumes everything up to and including the
first following m.  When no m follows the escape, no match can start at or
after this position at all (the pattern needs an m), so the remainder of the
text is left unchanged. -/
def stripAnsi (l : List Char) : List Char :=
  match l with
  | [] => []
  | c :: rest =>
      if c = escChar then
        match h : dropToM rest with
        | some rest2 => stripAnsi rest2
        | Option.none => c :: rest
      else
        c :: stripAnsi rest
termination_by l.length
decreasing_by
  · simp only [List.length_cons]
    have := dropToM_length rest rest2 h
    omega
  · simp only [List.length_cons]
    omega

theorem stripAnsi_nil : stripAnsi [] = [] := by simp [stripAnsi]

theorem stripAnsi_cons_esc_some {rest r2 : List Char} (h : dropToM rest = some r2) :
    stripAnsi (escChar :: rest) = stripAnsi r2 := by
  rw [stripAnsi.eq_def]
  dsimp only
  rw [if_pos rfl]
  split
  · next r2' h' =>
      rw [h] at h'
      cases h'
      rfl
  · next h' =>
      rw [h] at h'
      cases h'

theorem stripAnsi_cons_esc_none {rest : List Char} (h : dropToM rest = Option.none) :
    stripAnsi (escChar :: rest) = escChar :: rest := by
  rw [stripAnsi.eq_def]
  dsimp only
  rw [if_pos rfl]
  split
  · next r2' h' =>
      rw [h] at h'
      cases h'
  · next h' => rfl

theorem stripAnsi_cons_ne {c : Char} {rest : List Char} (h : ¬ c = escChar) :
    stripAnsi (c :: rest) = c :: stripAnsi rest := by
  rw [stripAnsi.eq_def]
  simp [h]

theorem stripAnsi_idem : ∀ (l : List Char), stripAnsi (stripAnsi l) = stripAnsi l := by
  intro l
  induction l using stripAnsi.induct with
  | case1 => simp [stripAnsi_nil]
  | case2 rest rest2 hdrop ih => rw [stripAnsi_cons_esc_some hdrop]; exact ih
  | case3 rest hdrop => rw [stripAnsi_cons_esc_none hdrop, stripAnsi_cons_esc_none hdrop]
  | case4 c rest hc ih => rw [stripAnsi_cons_ne hc, stripAnsi_cons_ne hc, ih]

theorem stripAnsi_no_esc : ∀ (l : List Char), escChar ∉ l → stripAnsi l = l := by
  intro l
  induction l with
  | nil => intro _; exact stripAnsi_nil
  | cons c rest ih =>
      intro h
      have hc : ¬ c = escChar := fun hce => h (hce ▸ List.mem_cons_self c rest)
      have hr : escChar ∉ rest := fun hm => h (List.mem_cons_of_mem c hm)
      rw [stripAnsi_cons_ne hc, ih hr]

/-- Code points str.splitlines breaks on: LF CR VT FF FS GS RS NEL LS PS. -/
def lineBreakCodes : List Nat := [10, 13, 11, 12, 28, 29, 30, 133, 8232, 8233]

def isLineBreakChar (c : Char) : Bool := lineBreakCodes.contains c.toNat

/-- Accumulator worker for splitlines; acc holds the current line reversed. -/
def splitlinesAux : List Char → List Char → List (List Char)
  | acc, [] => if acc.isEmpty then [] else [acc.reverse]
  | acc, '\r' :: '\n' :: rest => acc.reverse :: splitlinesAux [] rest
  | acc, c :: rest =>
      if isLineBreakChar c then acc.reverse :: splitlinesAux [] rest
      else splitlinesAux (c :: acc) rest

/-- Embedding of Python str.splitlines as used on source line 157: splits on
line terminators (treating a CR-LF pair as one terminator) and does not
produce a trailing empty line for text ending in a terminator. -/
def splitlines (l : List Char) : List (List Char) := splitlinesAux [] l

/-- Embedding of Python str.isascii (source line 155): true iff every code
point is below 128 (true for the empty string). -/
def isascii (l : List Char) : Bool := l.all (fun c => c.toNat < 128)

/-- Embedding of math.ceil(a / w) on source line 158, the division being
Python float division, modelled exactly over the rationals.  Python raises
ZeroDivisionError for w = 0; all width theorems assume 0 < w. -/
def pyceildiv (a : Int) (w : Nat) : Int := Int.ceil ((a : ℚ) / (w : ℚ))

/-- Embedding of get_lines (source lines 152-158), parameterised by the
console width that get_console_width would return.  The text is stripped of
ANSI matches, then length is bound to len when the stripped text is pure
ASCII and to chwidth otherwise, and that function is applied to each whole
line of splitlines; the lazily raised TypeError of chwidth on a multi-char
line is the error case. -/
def get_lines (u : UData) (console_width : Nat) (text : List Char) : Except Unit (List Int) :=
  let stripped := stripAnsi text
  if isascii stripped then
    Except.ok ((splitlines stripped).map (fun line => pyceildiv (line.length : Int) console_width))
  else
    (splitlines stripped).mapM (fun line =>
      (chwidth u line).map (fun wd => pyceildiv wd console_width))

/-- Loop body of clear_lines (source lines 164-167) accumulated over
range(lines); each element of the resulting list is one write() call. -/
def clearLoop (lines : Nat) : List String :=
  (List.range lines).foldl
    (fun acc i => acc ++ (if 0 < i then ["\x1b[1A"] else []) ++ ["\x1b[2K\x1b[1G"]) []

/-- Embedding of clear_lines (source lines 161-167): the writes it issues, in
order.  It first writes the move-to-column-1 sequence, then runs the loop. -/
def clear_lines (lines : Nat) : List String := "\x1b[1G" :: clearLoop lines

theorem pyceildiv_nat (L w : Nat) (hw : 0 < w) :
    pyceildiv (L : Int) w = (((L + w - 1) / w : Nat) : Int) := by
  unfold pyceildiv
  have hw' : (0 : ℚ) < (w : ℚ) := by exact_mod_cast hw
  have key1 : ((L + w - 1) / w) * w ≤ L + w - 1 := Nat.div_mul_le_self _ _
  have key2 : L + w - 1 < ((L + w - 1) / w) * w + w := by
    have hdm := Nat.div_add_mod (L + w - 1) w
    have hm : (L + w - 1) % w < w := Nat.mod_lt _ hw
    have hcomm : w * ((L + w - 1) / w) = ((L + w - 1) / w) * w := Nat.mul_comm _ _
    omega
  rw [Int.ceil_eq_iff]
  generalize hn : (L + w - 1) / w = n at key1 key2 ⊢
  have c1 : n * w < L + w := by omega
  have c2 : L ≤ n * w := by omega
  constructor
  · rw [lt_div_iff₀ hw']
    push_cast
    have c1' : (n : ℚ) * (w : ℚ) < (L : ℚ) + (w : ℚ) := by exact_mod_cast c1
    nlinarith [c1']
  · rw [div_le_iff₀ hw']
    push_cast
    exact_mod_cast c2

/-- Evaluation of get_lines on ASCII, escape-free text: every line counts its
characters and the row count is the ceiling division expressed over Nat. -/
theorem get_lines_ascii (u : UData) (w : Nat) (t : List Char) (hw : 0 < w)
    (ha : isascii t = true) (he : escChar ∉ t) :
    get_lines u w t =
      Except.ok ((splitlines t).map
        (fun line => (((line.length + w - 1) / w : Nat) : Int))) := by
  unfold get_lines
  rw [stripAnsi_no_esc t he]
  simp only [ha, if_true]
  have hrw : ∀ line : List Char,
      pyceildiv (line.length : Int) w = (((line.length + w - 1) / w : Nat) : Int) :=
    fun line => pyceildiv_nat line.length w hw
  simp only [hrw]

theorem clearLoop_succ (n : Nat) :
    clearLoop (n + 1) =
      clearLoop n ++ (if 0 < n then ["\x1b[1A"] else []) ++ ["\x1b[2K\x1b[1G"] := by
  unfold clearLoop
  rw [List.range_succ, List.foldl_append]
  rfl

/-- Up-and-erase block repeated m times, one list element per write call. -/
def upEraseBlock (m : Nat) : List String :=
  match m with
  | 0 => []
  | Nat.succ k => upEraseBlock k ++ ["\x1b[1A", "\x1b[2K\x1b[1G"]

/-- Closed form of the loop part of clear_lines: nothing for n = 0, else an
erase-and-column-1 of the current row followed by n-1 up-erase blocks. -/
def loopClosed (n : Nat) : List String :=
  match n with
  | 0 => []
  | Nat.succ m => "\x1b[2K\x1b[1G" :: upEraseBlock m

theorem clearLoop_eq : ∀ n : Nat, clearLoop n = loopClosed n := by
  intro n
  induction n with
  | zero => rfl
  | succ m ih =>
      rw [clearLoop_succ, ih]
      cases m with
      | zero => rfl
      | succ k =>
          simp only [loopClosed, if_pos (Nat.succ_pos k), upEraseBlock]
          simp [List.append_assoc]

/-- Closed form of the writes clear_lines actually issues: the column-1 move,
then (when n is at least 1) an erase-and-column-1 of the current row followed
by n-1 up-erase-column-1 blocks; for n = 0 nothing beyond the column-1 move. -/
def clear_lines_closed (n : Nat) : List String :=
  match n with
  | 0 => ["\x1b[1G"]
  | Nat.succ m => "\x1b[1G" :: "\x1b[2K\x1b[1G" :: upEraseBlock m

/-- Writes the claim says clear_lines emits: column-1 move, then n-1 blocks of
up, erase-row, column-1, and a final erase of the current row, the final erase
being claimed even for n = 0. -/
def claimedLoop (m : Nat) : List String :=
  match m with
  | 0 => []
  | Nat.succ k => claimedLoop k ++ ["\x1b[1A", "\x1b[2K", "\x1b[1G"]

def clear_lines_claimed (n : Nat) : List String :=
  "\x1b[1G" :: (claimedLoop (n - 1) ++ ["\x1b[2K"])

/-- Outcome of one call of the caller-supplied render hook during a tick:
either it writes a frame and returns its row metrics, or it raises an
exception.  Per the source, the returned metrics are a non-restartable
iterator (get_lines on lines 152-158 is a generator function and live_text on
lines 170-174 yields get_lines(frame)): once summed it yields nothing more. -/
inductive HookRes where
  | ok (rows : List Int)
  | raise
deriving DecidableEq

/-- Script for one iteration of the tick loop: the value the runtime's
message field holds when the loop reads it (the caller may have set it
between ticks) and what the render hook does on this tick. -/
structure Tick where
  msg : String
  hook : HookRes
deriving DecidableEq

/-- Kinds of runtime objects: SyncRuntime or AsyncRuntime. -/
inductive RtKind where
  | sync
  | async
deriving DecidableEq

/-- Dynamic values the process-wide state fields can hold (source lines
121-125): Python None, a Thread or a Task handle driving runtime r's loop,
or a runtime object of kind k. -/
inductive Val where
  | vnone
  | vthread (r : Nat)
  | vtask (r : Nat)
  | vrt (k : RtKind) (r : Nat)
deriving DecidableEq

/-- Python truthiness of such a value: None is falsy, objects are truthy. -/
def truthyVal : Val → Bool
  | Val.vnone => false
  | _ => true

/-- Observable effects of the runtime: render-hook invocations (with the
message argument passed and the end flag), the loop clearing the message
field, sleeping, erasing n rows via clear_lines, joining or awaiting the
scheduling handle in stop, and spawning the thread or task of runtime r. -/
inductive Ev where
  | render (r : Nat) (msg : Option String) (endFlag : Bool)
  | msgClear (r : Nat)
  | sleepE (r : Nat) (d : ℚ)
  | clearE (r : Nat) (n : Int)
  | joinE
  | spawn (r : Nat)
deriving DecidableEq

/-- Embedding of the body of SyncRuntime.run (source lines 195-206) for
runtime i with delay d.  clearable holds the remaining items of the last
assigned row iterator: Option.none is Python None before any assignment, and
some [] is a truthy but already-consumed iterator.  A successful tick renders
with the pending message — or None when it is the empty string (line 200:
self.message or None) — clears the message field, sleeps, and erases the sum
of the fresh iterator, consuming it.  When the hook raises, the except branch
(lines 204-206) erases the sum of whatever remains in clearable when it is
truthy, and the loop ends without re-raising.  The tick list ends when
running is observed false. -/
def SyncRuntime.runAux (i : Nat) (d : ℚ) : Option (List Int) → List Tick → List Ev
  | _, [] => []
  | clearable, t :: rest =>
    match t.hook with
    | HookRes.ok rows =>
        Ev.render i (if t.msg = "" then Option.none else some t.msg) false
          :: Ev.msgClear i
          :: Ev.sleepE i d
          :: Ev.clearE i rows.sum
          :: SyncRuntime.runAux i d (some []) rest
    | HookRes.raise =>
        match clearable with
        | some g => [Ev.clearE i g.sum]
        | Option.none => []

def SyncRuntime.run (i : Nat) (d : ℚ) (ts : List Tick) : List Ev :=
  SyncRuntime.runAux i d Option.none ts

/-- Embedding of the body of AsyncRuntime.run (source lines 251-262), which
is textually identical to SyncRuntime.run except that the blocking sleep is
the awaited asyncio sleep. -/
def AsyncRuntime.runAux (i : Nat) (d : ℚ) : Option (List Int) → List Tick → List Ev
  | _, [] => []
  | clearable, t :: rest =>
    match t.hook with
    | HookRes.ok rows =>
        Ev.render i (if t.msg = "" then Option.none else some t.msg) false
          :: Ev.msgClear i
          :: Ev.sleepE i d
          :: Ev.clearE i rows.sum
          :: AsyncRuntime.runAux i d (some []) rest
    | HookRes.raise =>
        match clearable with
        | some g => [Ev.clearE i g.sum]
        | Option.none => []

def AsyncRuntime.run (i : Nat) (d : ℚ) (ts : List Tick) : List Ev :=
  AsyncRuntime.runAux i d Option.none ts

/-- Process-wide mutable state (class state, source lines 121-125) together
with the per-runtime object fields running and message (source lines
177-183 and 233-239) and a log of the observable effects emitted so far.
Runtime objects are identified by Nat. -/
structure Sys where
  running : Nat → Bool
  message : Nat → String
  inst : Val
  handle : Val
  log : List Ev

/-- Embedding of SyncRuntime.stop (source lines 219-230) for runtime i: a
no-op unless running; otherwise set running to false, join the global handle
when it is truthy, build the final message — the pending message, with the
epilogue and a line break appended only when the epilogue is truthy, that is
neither None nor the empty string (line 226: if epilogue) — render it once
with end true, then clear the global handle and instance. -/
def SyncRuntime.stop (i : Nat) (epilogue : Option String) (s : Sys) : Sys :=
  if s.running i then
    let s1 : Sys := { s with running := fun j => if j = i then false else s.running j }
    let s2 : Sys := if truthyVal s1.handle then { s1 with log := s1.log ++ [Ev.joinE] } else s1
    let m : String := s2.message i
    let m2 : String :=
      match epilogue with
      | some e => if e = "" then m else m ++ e ++ "\n"
      | Option.none => m
    let s3 : Sys := { s2 with log := s2.log ++ [Ev.render i (some m2) true] }
    { s3 with handle := Val.vnone, inst := Val.vnone }
  else s

/-- Embedding of AsyncRuntime.stop (source lines 274-288), identical to the
sync variant except that the handle is awaited, a CancelledError being
swallowed — not an observable difference in this model. -/
def AsyncRuntime.stop (i : Nat) (epilogue : Option String) (s : Sys) : Sys :=
  if s.running i then
    let s1 : Sys := { s with running := fun j => if j = i then false else s.running j }
    let s2 : Sys := if truthyVal s1.handle then { s1 with log := s1.log ++ [Ev.joinE] } else s1
    let m : String := s2.message i
    let m2 : String :=
      match epilogue with
      | some e => if e = "" then m else m ++ e ++ "\n"
      | Option.none => m
    let s3 : Sys := { s2 with log := s2.log ++ [Ev.render i (some m2) true] }
    { s3 with handle := Val.vnone, inst := Val.vnone }
  else s

/-- Embedding of the module-level stop (source lines 291-295): it inspects
state.handle with isinstance against SyncRuntime and then AsyncRuntime and
invokes the matching stop; the match on Val encodes those dynamic type
tests, runtime objects being the vrt values. -/
def globalStop (s : Sys) : Sys :=
  match s.handle with
  | Val.vrt RtKind.sync i => SyncRuntime.stop i Option.none s
  | Val.vrt RtKind.async i => AsyncRuntime.stop i Option.none s
  | _ => s

/-- Embedding of SyncRuntime.start (source lines 208-217) for runtime i: a
no-op when already running; otherwise call the module-level stop when
state.instance is truthy, register self as state.instance, set running,
spawn the worker thread and store it in state.handle. -/
def SyncRuntime.start (i : Nat) (s : Sys) : Sys :=
  if s.running i then s
  else
    let s1 : Sys := if truthyVal s.inst then globalStop s else s
    let s2 : Sys := { s1 with inst := Val.vrt RtKind.sync i }
    let s3 : Sys := { s2 with running := fun j => if j = i then true else s2.running j }
    { s3 with handle := Val.vthread i, log := s3.log ++ [Ev.spawn i] }

/-- Embedding of AsyncRuntime.start (source lines 264-272), identical to the
sync variant except that it creates a task instead of a thread. -/
def AsyncRuntime.start (i : Nat) (s : Sys) : Sys :=
  if s.running i then s
  else
    let s1 : Sys := if truthyVal s.inst then globalStop s else s
    let s2 : Sys := { s1 with inst := Val.vrt RtKind.async i }
    let s3 : Sys := { s2 with running := fun j => if j = i then true else s2.running j }
    { s3 with handle := Val.vtask i, log := s3.log ++ [Ev.spawn i] }

theorem runAux_sync_eq_async (i : Nat) (d : ℚ) (cl : Option (List Int)) (ts : List Tick) :
    SyncRuntime.runAux i d cl ts = AsyncRuntime.runAux i d cl ts := by
  induction ts generalizing cl with
  | nil => rfl
  | cons t rest ih =>
      cases ht : t.hook with
      | ok rows =>
          simp only [SyncRuntime.runAux, AsyncRuntime.runAux, ht]
          rw [ih]
      | raise =>
          cases cl <;> simp [SyncRuntime.runAux, AsyncRuntime.runAux, ht]

/-- Arbitrary instantiation of the unicodedata oracle; used only along paths
that never consult it (the ASCII fast path and the multi-character TypeError
path of chwidth). -/
def u0 : UData :=
  { category := fun _ => GC.other, combining := fun _ => 0,
    east_asian_width := fun _ => EAW.N }

/-- Six copies of the Wide (east-asian class W) code point U+54C8. -/
def c2line : List Char := List.replicate 6 (Char.ofNat 0x54C8)

/-- Empty process state: nothing running, nothing registered. -/
def sysIdle : Sys :=
  { running := fun _ => false, message := fun _ => "", inst := Val.vnone,
    handle := Val.vnone, log := [] }

/-- State after starting sync runtime 0 from the empty state. -/
def sysA : Sys := SyncRuntime.start 0 sysIdle

/-- A running registered sync runtime with pending message Loading. -/
def sysRunning : Sys :=
  { running := fun _ => true, message := fun _ => "Loading",
    inst := Val.vrt RtKind.sync 0, handle := Val.vthread 0, log := [] }

/-- A running registered sync runtime with pending message x. -/
def sysPendingX : Sys :=
  { running := fun _ => true, message := fun _ => "x",
    inst := Val.vrt RtKind.sync 0, handle := Val.vthread 0, log := [] }

/-- A running registered sync runtime with an empty pending message. -/
def sysPendingEmpty : Sys :=
  { running := fun _ => true, message := fun _ => "",
    inst := Val.vrt RtKind.sync 0, handle := Val.vthread 0, log := [] }

/-- C1: evaluated at the failing input — sync runtime 0 is started and
registered, then runtime 1's start is called.  The module-level stop is the
identity on that state (its isinstance checks inspect state.handle, which
holds a Thread value), so runtime 0 is never stopped: afterwards both
runtimes are running, no end render was ever emitted (the log holds only the
two spawns), contradicting the single-active invariant. -/
theorem start_leaves_previous_running :
    sysA.running 0 = true ∧ sysA.inst = Val.vrt RtKind.sync 0 ∧
    sysA.handle = Val.vthread 0 ∧
    globalStop sysA = sysA ∧
    (SyncRuntime.start 1 sysA).running 0 = true ∧
    (SyncRuntime.start 1 sysA).running 1 = true ∧
    (SyncRuntime.start 1 sysA).inst = Val.vrt RtKind.sync 1 ∧
    (SyncRuntime.start 1 sysA).log = [Ev.spawn 0, Ev.spawn 1] :=
  ⟨rfl, rfl, rfl, rfl, rfl, rfl, rfl, rfl⟩

/-- C2: evaluated at the failing input — at width 10, a frame of six Wide
characters makes get_lines raise (chwidth receives the whole six-character
line and the underlying unicodedata.category call accepts only a single
character), for every unicodedata oracle, instead of yielding the claimed
row count 2. -/
theorem nonascii_line_row_count_raises :
    ∀ u : UData, get_lines u 10 c2line = Except.error () := by
  intro u
  have ha : isascii c2line = false := by decide
  unfold get_lines
  rw [stripAnsi_no_esc c2line (by decide)]
  simp only [ha, Bool.false_eq_true, if_false]
  rfl

/-- C3 counterexample: an empty logical line at width 10 yields row count 0,
not the claimed minimum of 1. -/
theorem ascii_row_count_empty_line_zero :
    get_lines u0 10 ['\n'] = Except.ok [0] ∧
    ¬ get_lines u0 10 ['\n'] = Except.ok [1] := by
  have h := get_lines_ascii u0 10 ['\n'] (by norm_num) (by decide) (by decide)
  have hv : (splitlines ['\n']).map
      (fun line => (((line.length + 10 - 1) / 10 : Nat) : Int)) = [0] := by decide
  rw [h, hv]
  exact ⟨rfl, by simp⟩

/-- C3 (amended): for ASCII, escape-free text and width w greater than 0,
every line's row count produced by get_lines is the ceiling division
(L + w - 1) / w with no minimum — an empty line yields 0, while every
nonempty line yields at least 1. -/
theorem ascii_row_counts_ceildiv (u : UData) (w : Nat) (t : List Char)
    (hw : 0 < w) (ha : isascii t = true) (he : escChar ∉ t) :
    get_lines u w t =
      Except.ok ((splitlines t).map
        (fun line => (((line.length + w - 1) / w : Nat) : Int))) ∧
    (∀ line ∈ splitlines t, line ≠ [] →
      1 ≤ (((line.length + w - 1) / w : Nat) : Int)) ∧
    (∀ line ∈ splitlines t, line = [] →
      (((line.length + w - 1) / w : Nat) : Int) = 0) := by
  refine ⟨get_lines_ascii u w t hw ha he, ?_, ?_⟩
  · intro line _ hne
    have hlen : 1 ≤ line.length := by
      cases line with
      | nil => exact absurd rfl hne
      | cons a l => simp
    have hdiv : 1 ≤ (line.length + w - 1) / w := by
      rw [Nat.one_le_div_iff hw]
      omega
    exact_mod_cast hdiv
  · intro line _ hnil
    subst hnil
    have h0 : (List.length ([] : List Char) + w - 1) / w = 0 := by
      simp only [List.length_nil]
      exact Nat.div_eq_of_lt (by omega)
    rw [h0]
    rfl

/-- Witness for the amended C3 theorem at the concrete input abc, width 10. -/
theorem ascii_row_counts_ceildiv_witness :
    get_lines u0 10 (String.toList "abc") = Except.ok [1] := by
  have h := ascii_row_counts_ceildiv u0 10 (String.toList "abc")
    (by norm_num) (by decide) (by decide)
  rw [h.1]
  congr 1

/-- Embedding of the POSIX get_console_width (source lines 101-106): the
ioctl TIOCGWINSZ payload is struct winsize, whose four unsigned shorts are
(ws_row, ws_col, ws_xpixel, ws_ypixel); Option.none models ioctl raising.
The code unpacks them into rows, *_ and returns rows, falling back to 80. -/
def get_console_width : Option (Nat × Nat × Nat × Nat) → Nat
  | Option.none => 80
  | some (rows, _, _, _) => rows

/-- Embedding of the win32 get_console_width (source lines 68-71): given the
srWindow left and right coordinates from GetConsoleScreenBufferInfo, or
Option.none when that call fails, it returns right - left + 1, or 80. -/
def get_console_width_win32 : Option (Int × Int) → Int
  | Option.none => 80
  | some (left, right) => right - left + 1

/-- C4: evaluated at the failing input — on the POSIX path the function
returns the first unpacked winsize field, which is the row count, for every
ioctl result: a 24-row, 80-column terminal yields 24, not the column width
80.  The 80 fallback on failure and the win32 column computation behave as
claimed. -/
theorem get_console_width_returns_rows_field :
    (∀ r c x y : Nat, get_console_width (some (r, c, x, y)) = r) ∧
    get_console_width (some (24, 80, 0, 0)) = 24 ∧
    get_console_width Option.none = 80 ∧
    get_console_width_win32 (some (0, 79)) = 80 ∧
    get_console_width_win32 Option.none = 80 :=
  ⟨fun _ _ _ _ => rfl, rfl, rfl, by decide, rfl⟩

/-- C5 counterexample: for a row count of 0, clear_lines writes only the
column-1 move and never erases, while the claimed sequence ends with an
erase of the current row; the emitted bytes differ. -/
theorem clear_lines_zero_rows_no_erase :
    clear_lines 0 = ["\x1b[1G"] ∧
    clear_lines_claimed 0 = ["\x1b[1G", "\x1b[2K"] ∧
    ¬ String.join (clear_lines 0) = String.join (clear_lines_claimed 0) := by
  decide

/-- C5 (amended): clear_lines n emits exactly the column-1 move, then — when
n is at least 1 — an erase-and-column-1 of the current row followed by n - 1
blocks of cursor-up, erase-row, column-1; for n = 0 nothing is emitted after
the initial column-1 move, so there is no one-row erase minimum. -/
theorem clear_lines_emitted_writes : ∀ n : Nat, clear_lines n = clear_lines_closed n := by
  intro n
  cases n with
  | zero => rfl
  | succ m =>
      unfold clear_lines clear_lines_closed
      rw [clearLoop_eq]
      rfl

/-- C6: evaluated at the failing input — tick one succeeds with one measured
row (erased normally), tick two's render hook raises.  The recovery branch
re-sums the already-consumed row iterator of the previous tick and therefore
erases zero rows, not the most recently measured count 1; the loop does end
without propagating.  The thread-based and cooperative loops behave
identically. -/
theorem render_raise_erases_zero_rows :
    SyncRuntime.run 0 1 [⟨"", HookRes.ok [1]⟩, ⟨"", HookRes.raise⟩] =
      [Ev.render 0 Option.none false, Ev.msgClear 0, Ev.sleepE 0 1,
       Ev.clearE 0 1, Ev.clearE 0 0] ∧
    AsyncRuntime.run 0 1 [⟨"", HookRes.ok [1]⟩, ⟨"", HookRes.raise⟩] =
      [Ev.render 0 Option.none false, Ev.msgClear 0, Ev.sleepE 0 1,
       Ev.clearE 0 1, Ev.clearE 0 0] :=
  ⟨rfl, rfl⟩

/-- C7 counterexample: stopping with the empty epilogue string renders the
pending message verbatim, without the claimed appended epilogue and line
break. -/
theorem stop_empty_epilogue_renders_verbatim :
    (SyncRuntime.stop 0 (some "") sysPendingX).log =
      [Ev.joinE, Ev.render 0 (some "x") true] ∧
    ¬ (SyncRuntime.stop 0 (some "") sysPendingX).log =
      [Ev.joinE, Ev.render 0 (some ("x" ++ "" ++ "\n")) true] := by
  decide

/-- C7 (amended): for every running instance and every nonempty epilogue e,
stop(e) joins the handle and then invokes the render hook exactly once more
with end true and the pending message with e and a line break appended; that
render is the last emitted effect — never followed by an erase — and the
global handle and instance registrations are cleared.  This holds for both
runtimes. -/
theorem stop_nonempty_epilogue_final_render (i : Nat) (e : String) (s : Sys)
    (hr : s.running i = true) (he : ¬ e = "") (hh : truthyVal s.handle = true) :
    (SyncRuntime.stop i (some e) s).log =
      s.log ++ [Ev.joinE, Ev.render i (some (s.message i ++ e ++ "\n")) true] ∧
    (SyncRuntime.stop i (some e) s).handle = Val.vnone ∧
    (SyncRuntime.stop i (some e) s).inst = Val.vnone ∧
    (AsyncRuntime.stop i (some e) s).log =
      s.log ++ [Ev.joinE, Ev.render i (some (s.message i ++ e ++ "\n")) true] ∧
    (AsyncRuntime.stop i (some e) s).handle = Val.vnone ∧
    (AsyncRuntime.stop i (some e) s).inst = Val.vnone := by
  unfold SyncRuntime.stop AsyncRuntime.stop
  simp [hr, hh, he, List.append_assoc]

/-- Witness for the amended C7 theorem at a concrete running state with
pending message Loading and epilogue done. -/
theorem stop_nonempty_epilogue_final_render_witness :
    (SyncRuntime.stop 0 (some "done") sysRunning).log =
      [Ev.joinE, Ev.render 0 (some "Loadingdone\n") true] ∧
    (SyncRuntime.stop 0 (some "done") sysRunning).inst = Val.vnone := by
  have h := stop_nonempty_epilogue_final_render 0 "done" sysRunning rfl (by decide) rfl
  exact ⟨by rw [h.1]; decide, h.2.2.1⟩

/-- C8: the per-line row counts of any frame equal those of the same frame
with every ANSI escape sequence deleted, for every oracle and width; this is
the idempotence of the escape-stripping substitution that get_lines applies
first. -/
theorem row_counts_invariant_under_ansi_strip :
    ∀ (u : UData) (w : Nat) (t : List Char),
      get_lines u w t = get_lines u w (stripAnsi t) := by
  intro u w t
  unfold get_lines
  rw [stripAnsi_idem]

/-- C9: given the same scripted hook results, messages and delay, the
thread-based and the cooperative tick loops emit the identical sequence of
render, message-clear, sleep and erase effects. -/
theorem sync_async_run_equivalent :
    ∀ (i : Nat) (d : ℚ) (ts : List Tick),
      SyncRuntime.run i d ts = AsyncRuntime.run i d ts :=
  fun i d ts => runAux_sync_eq_async i d Option.none ts

/-- C10: the loop's renders never carry an empty-string message — when the
pending message is empty the hook receives None (so if every scripted
message is empty no tick render carries a string at all) — whereas stop with
no epilogue and nothing pending renders the empty string itself (not None)
with end true as the final effect. -/
theorem render_message_normalization :
    (∀ (i : Nat) (d : ℚ) (cl : Option (List Int)) (ts : List Tick),
        Ev.render i (some "") false ∉ SyncRuntime.runAux i d cl ts) ∧
    (∀ (i : Nat) (d : ℚ) (cl : Option (List Int)) (ts : List Tick) (m : String),
        (∀ t ∈ ts, t.msg = "") →
        Ev.render i (some m) false ∉ SyncRuntime.runAux i d cl ts) ∧
    (∀ (i : Nat) (s : Sys), s.running i = true → s.message i = "" →
        (SyncRuntime.stop i Option.none s).log =
          s.log ++ (if truthyVal s.handle then [Ev.joinE] else []) ++
            [Ev.render i (some "") true]) := by
  refine ⟨?_, ?_, ?_⟩
  · intro i d cl ts
    induction ts generalizing cl with
    | nil => simp [SyncRuntime.runAux]
    | cons t rest ih =>
        intro hmem
        cases ht : t.hook with
        | ok rows =>
            simp only [SyncRuntime.runAux, ht, List.mem_cons] at hmem
            rcases hmem with h | h | h | h | h
            · by_cases hm : t.msg = ""
              · simp [hm] at h
              · simp [hm] at h
                exact hm h.symm
            · simp at h
            · simp at h
            · simp at h
            · exact ih (some []) h
        | raise =>
            cases cl with
            | none => simp [SyncRuntime.runAux, ht] at hmem
            | some g => simp [SyncRuntime.runAux, ht] at hmem
  · intro i d cl ts m
    induction ts generalizing cl with
    | nil => intro _; simp [SyncRuntime.runAux]
    | cons t rest ih =>
        intro hts hmem
        have hthead : t.msg = "" := hts t (List.mem_cons_self t rest)
        have htrest : ∀ t' ∈ rest, t'.msg = "" :=
          fun t' ht' => hts t' (List.mem_cons_of_mem t ht')
        cases ht : t.hook with
        | ok rows =>
            simp only [SyncRuntime.runAux, ht, List.mem_cons] at hmem
            rcases hmem with h | h | h | h | h
            · simp [hthead] at h
            · simp at h
            · simp at h
            · simp at h
            · exact ih (some []) htrest h
        | raise =>
            cases cl with
            | none => simp [SyncRuntime.runAux, ht] at hmem
            | some g => simp [SyncRuntime.runAux, ht] at hmem
  · intro i s hr hm
    unfold SyncRuntime.stop
    by_cases hh : truthyVal s.handle <;> simp [hr, hh, hm, List.append_assoc]

/-- Witness for the C10 theorem: a tick with a nonempty message never renders
the empty string; with all-empty messages no string is rendered at all; and
stop on a running, empty-message state ends with an end render of the empty
string. -/
theorem render_message_normalization_witness :
    Ev.render 0 (some "") false ∉
      SyncRuntime.runAux 0 1 Option.none [⟨"hi", HookRes.ok [1]⟩] ∧
    Ev.render 0 (some "zz") false ∉
      SyncRuntime.runAux 0 1 Option.none [⟨"", HookRes.ok [2]⟩] ∧
    (SyncRuntime.stop 0 Option.none sysPendingEmpty).log =
      [Ev.joinE, Ev.render 0 (some "") true] := by
  refine ⟨render_message_normalization.1 0 1 Option.none _,
          render_message_normalization.2.1 0 1 Option.none _ "zz" (by decide), ?_⟩
  have h := render_message_normalization.2.2 0 sysPendingEmpty rfl rfl
  simpa using h

end Xspin
